import Mathlib

/-!
Shallow embedding of the `Skamlo/embedding` scraping pipeline
(`src/scraping/scrape_products.py`, `src/scraping/scrape_urls.py`,
`src/scraping/file_manager.py`) together with theorems checking the
natural-language specification against it.

DOM lookups performed through BeautifulSoup/Selenium are modelled by a
`ProductPage` structure: each field holds the outcome of the corresponding
lookup chain (`none` = some step of the chain raised / the node is missing,
mirroring the `try/except` blocks of the source).  Python `float` values are
modelled as `ℚ`, Python `None` as `Option.none`, JSON files as optional
lists (`none` = the file does not exist), and a run of the batch runner as a
pure state-passing function returning `Except RunError`.
-/

namespace Scraping

/-- One entry of the product-reference list (discovery output /
extraction input): `{url, category, sub_category}`. -/
structure ProductData where
  url : String
  category : String
  sub_category : String
deriving DecidableEq, Repr

/-- One `{title, measurement}` card produced by
`ScrapeProducts.__get_items_in_the_set`. -/
structure SetItem where
  title : String
  measurement : String
deriving DecidableEq, Repr

/-- A Python value as it can appear bound to a key of the assembled product
dict: a string, a float (modelled as `ℚ`), the details dict, the
included-items list, or `None`. -/
inductive Value where
  | vStr : String → Value
  | vNum : ℚ → Value
  | vDict : List (String × String) → Value
  | vItems : List SetItem → Value
  | vNone : Value
deriving DecidableEq, Repr

/-- A product record: a Python dict built by inserting distinct keys in
program order, modelled as an association list in insertion order. -/
abbrev Record := List (String × Value)

/-- Python truthiness of a `Value` (`if x:`): non-empty string, non-zero
number, non-empty dict/list; `None` is falsy. -/
def Value.truthy : Value → Bool
  | .vStr s => s != ""
  | .vNum q => q != 0
  | .vDict d => !d.isEmpty
  | .vItems l => !l.isEmpty
  | .vNone => false

/-- Truthiness of an optional value: `None` (absent) is falsy. -/
def opt_truthy : Option Value → Bool
  | none => false
  | some w => w.truthy

/-- The singleton binding produced by `if x: product[key] = x`
(empty when `x` is absent or falsy). -/
def entry_if (key : String) : Option Value → Record
  | none => []
  | some w => if w.truthy then [(key, w)] else []

/-- `if x: product[key] = x` — append the binding to the dict when the
value is present and truthy. -/
def push_if (r : Record) (key : String) (v : Option Value) : Record :=
  r ++ entry_if key v

/-- `product.get(key)` specialised to string-valued keys (the only values
ever stored under `"product_id"`): the bound string, else `None`. -/
def rec_get_str (r : Record) (key : String) : Option String :=
  match List.lookup key r with
  | some (Value.vStr s) => some s
  | _ => none

/-- Numeric value of a digit string, most significant digit first. -/
def digitsVal (cs : List Char) : ℕ :=
  cs.foldl (fun a c => a * 10 + (c.toNat - 48)) 0

/-- Strip leading and trailing whitespace (as `float` does). -/
def trimChars (cs : List Char) : List Char :=
  ((cs.dropWhile Char.isWhitespace).reverse.dropWhile Char.isWhitespace).reverse

/-- Split a character list at every `'.'`. -/
def splitDotAux : List Char → List Char → List (List Char)
  | [], acc => [acc.reverse]
  | c :: cs, acc =>
    if c = '.' then acc.reverse :: splitDotAux cs []
    else splitDotAux cs (c :: acc)

/-- `Python float(s)` on the shapes relevant here: an optionally
dot-separated digit string (possibly with surrounding whitespace) parses to
its value; anything else (empty string, non-digit characters) raises,
modelled as `none`. -/
def pyFloat (s : String) : Option ℚ :=
  match splitDotAux (trimChars s.toList) [] with
  | [a] =>
      if a.all Char.isDigit ∧ a ≠ [] then
        some (digitsVal a)
      else none
  | [a, b] =>
      if a.all Char.isDigit ∧ b.all Char.isDigit ∧ (a ≠ [] ∨ b ≠ []) then
        some ((digitsVal a : ℚ) + (digitsVal b : ℚ) / (10 : ℚ) ^ b.length)
      else none
  | _ => none

/-- The two text nodes of one structural price variant
(`pip-price__integer` and `pip-price__decimal` under the variant's
`notranslate` span); `none` means the corresponding lookup chain raised. -/
structure PriceDiv where
  integerText : Option String
  decimalText : Option String
deriving DecidableEq, Repr

/-- Content reachable after expanding the details panel, as read by
`ScrapeProducts.__get_informations_about_product`: `paragraphs = none`
means the `pip-product-details__container` lookup raised; the four `li`
blocks are found directly on the page when present. -/
structure DetailsPanel where
  paragraphs : Option (List String)
  good_to_know : Option String
  material_and_care : Option String
  safety_and_compliance : Option String
  assembly_and_documents : Option String
deriving DecidableEq, Repr

/-- The rendered product page as seen by the extractors of
`ScrapeProducts`.  Each field is the outcome of the corresponding
BeautifulSoup/Selenium lookup chain; `none` records that the chain raised
(missing node), which the source converts into an absent field.
`detailsPanel`/`includedCards`/`sizesPanel` are the page states reached
after the optional click sequences; their outer `none` records a failed
click/navigation chain. -/
structure ProductPage where
  title : Option String
  subtitleParts : Option (String × String)
  priceSpan : Option PriceDiv
  priceEm : Option PriceDiv
  description : Option String
  product_id : Option String
  designer : Option String
  imageSrc : Option String
  imageFetchOk : Bool
  hasDetails : Bool
  hasIncluded : Bool
  hasMeasurement : Bool
  detailsPanel : Option DetailsPanel
  includedCards : Option (List (Option (String × String)))
  sizesPanel : Option (Option String)
deriving DecidableEq, Repr

namespace ScrapeProducts

/-- `ScrapeProducts.__get_title`: the title chain's text, `None` on failure. -/
def get_title (p : ProductPage) : Option String := p.title

/-- `ScrapeProducts.__get_subtitle`: `descrption.text + descrption.find("a").text`,
`None` when any step of the chain raises. -/
def get_subtitle (p : ProductPage) : Option String :=
  p.subtitleParts.map (fun ab => ab.1 ++ ab.2)

/-- One iteration of the `for tag in ["span", "em"]` loop of
`ScrapeProducts.__get_price`: both text lookups must succeed, otherwise the
iteration raises and the loop continues. -/
def try_price_div : Option PriceDiv → Option (String × String)
  | none => none
  | some pd =>
    match pd.integerText, pd.decimalText with
    | some i, some d => some (i, d)
    | _, _ => none

/-- The `for ... break / else return None` search of
`ScrapeProducts.__get_price`: first the `span` variant, then the `em`
variant; `none` when neither completes. -/
def locate_price (p : ProductPage) : Option (String × String) :=
  match try_price_div p.priceSpan with
  | some r => some r
  | none => try_price_div p.priceEm

/-- `ScrapeProducts.__get_price`: texts of the first matching variant,
each parsed by `float` defaulting to `0.0` on failure, combined as
`integer + decimal / 100`; `None` when neither variant matches. -/
def get_price (p : ProductPage) : Option ℚ :=
  match locate_price p with
  | none => none
  | some (i, d) => some ((pyFloat i).getD 0 + (pyFloat d).getD 0 / 100)

/-- `ScrapeProducts.__get_description`. -/
def get_description (p : ProductPage) : Option String := p.description

/-- `ScrapeProducts.__get_product_id`. -/
def get_product_id (p : ProductPage) : Option String := p.product_id

/-- `ScrapeProducts.__get_designer`. -/
def get_designer (p : ProductPage) : Option String := p.designer

/-- `if block: informations[key] = block.get_text(...)`. -/
def opt_entry (k : String) : Option String → List (String × String)
  | none => []
  | some s => [(k, s)]

/-- `ScrapeProducts.__get_informations_about_product`: `None` when the
details container lookup raises; otherwise the dict of present blocks, with
all `pip-product-details__paragraph` texts concatenated (no separator)
under `"description"`; an empty dict is returned as `None`. -/
def get_informations_about_product (d : DetailsPanel) : Option (List (String × String)) :=
  match d.paragraphs with
  | none => none
  | some ps =>
    let informations : List (String × String) :=
      (match ps with
       | [] => []
       | _ :: _ => [("description", String.join ps)])
      ++ opt_entry "good_to_know" d.good_to_know
      ++ opt_entry "material_and_care" d.material_and_care
      ++ opt_entry "safety_and_compliance" d.safety_and_compliance
      ++ opt_entry "assembly_and_documents" d.assembly_and_documents
    if informations.isEmpty then none else some informations

/-- `ScrapeProducts.__get_items_in_the_set`: each card's title/measurement
chain must succeed, any failure makes the whole function return `None`;
note that an empty card list yields the empty list, not `None`. -/
def get_items_in_the_set (cards : List (Option (String × String))) : Option (List SetItem) :=
  match cards.mapM id with
  | none => none
  | some l => some (l.map (fun tm => { title := tm.1, measurement := tm.2 }))

/-- `f"{file_folder}/{product_id}.{extension}"` with a Python `None`
rendered as the string `"None"`. -/
def pyStrOfOpt : Option String → String
  | none => "None"
  | some s => s

/-- `ScrapeProducts.__get_image`: derive the local path from the `src`
attribute (`split("?")[0]`, extension `split(".")[-1]`); `None` when the
`src` chain raises or the HTTP fetch does not return 200. -/
def get_image (imageSrc : Option String) (fetchOk : Bool)
    (file_folder : String) (product_id : Option String) : Option String :=
  match imageSrc with
  | none => none
  | some src =>
    let base := (src.splitOn "?").headD ""
    let extension := (base.splitOn ".").getLastD ""
    let file_path := file_folder ++ "/" ++ pyStrOfOpt product_id ++ "." ++ extension
    if fetchOk then some file_path else none

/-- Lines 319–350 of `ScrapeProducts.__scrape_product`: build the sparse
product dict, inserting each field in program order only when present and
truthy. -/
def assemble_product (title subtitle : Option String) (price : Option ℚ)
    (description product_id designer : Option String)
    (informations_about_product : Option (List (String × String)))
    (items_in_the_set : Option (List SetItem))
    (sizes image_path : Option String) : Record :=
  let product : Record := []
  let product := push_if product "title" (title.map Value.vStr)
  let product := push_if product "subtitle" (subtitle.map Value.vStr)
  let product := push_if product "price" (price.map Value.vNum)
  let product := push_if product "description" (description.map Value.vStr)
  let product := push_if product "product_id" (product_id.map Value.vStr)
  let product := push_if product "designer" (designer.map Value.vStr)
  let product := push_if product "informations_about_product" (informations_about_product.map Value.vDict)
  let product := push_if product "items_in_the_set" (items_in_the_set.map Value.vItems)
  let product := push_if product "sizes" (sizes.map Value.vStr)
  let product := push_if product "image_path" (image_path.map Value.vStr)
  product

/-- `ScrapeProducts.__scrape_product` on an already-rendered page: parse
the product id, skip (`return None`) when it is in `already_scraped`,
otherwise extract every field (optional panels only when flagged available
and their click chain succeeded) and assemble the sparse record. -/
def scrape_product (p : ProductPage) (already_scraped : List (Option String)) : Option Record :=
  let product_id := get_product_id p
  if product_id ∈ already_scraped then none
  else
    let title := get_title p
    let subtitle := get_subtitle p
    let price := get_price p
    let description := get_description p
    let designer := get_designer p
    let image_path := get_image p.imageSrc p.imageFetchOk "imgs" product_id
    let informations_about_product :=
      if p.hasDetails then p.detailsPanel.bind get_informations_about_product else none
    let items_in_the_set :=
      if p.hasIncluded then p.includedCards.bind get_items_in_the_set else none
    let sizes := if p.hasMeasurement then p.sizesPanel.join else none
    some (assemble_product title subtitle price description product_id designer
      informations_about_product items_in_the_set sizes image_path)

end ScrapeProducts

namespace ScrapeUrls

/-- `ScrapeUrls.__get_number_of_pages`:
`math.ceil((number_of_products - 12) / 48) + 1`. -/
def get_number_of_pages (number_of_products : ℤ) : ℤ :=
  ⌈((number_of_products : ℚ) - 12) / 48⌉ + 1

end ScrapeUrls

/-- Failure modes of a run, each corresponding to an uncaught Python
exception in `ScrapeProducts.scrape`. -/
inductive RunError where
  /-- `IndexError` at `products_urls_groups[0][0]` when the reference list is empty. -/
  | emptyInput
  /-- `FileNotFoundError` in `FileManager.extend` (output file missing). -/
  | storeFileMissing
  /-- `FileNotFoundError` in `FileManager.add` (quarantine file missing). -/
  | ledgerFileMissing
deriving DecidableEq, Repr

namespace FileManager

/-- `FileManager.save`: wholesale overwrite (creates the file if absent). -/
def save {α : Type} (objs : List α) (_file : Option (List α)) : Option (List α) :=
  some objs

/-- `FileManager.extend`: read the existing file (raising when it does not
exist) and append the batch to its record list. -/
def extend {α : Type} (objs : List α) (file : Option (List α)) :
    Except RunError (Option (List α)) :=
  match file with
  | none => .error .storeFileMissing
  | some data => .ok (some (data ++ objs))

/-- `FileManager.add`: read the existing file (raising when it does not
exist) and append one object to its record list. -/
def add {α : Type} (obj : α) (file : Option (List α)) :
    Except RunError (Option (List α)) :=
  match file with
  | none => .error .ledgerFileMissing
  | some data => .ok (some (data ++ [obj]))

end FileManager

/-- Outcome of one call of `ScrapeProducts.__scrape_product` inside the
retry loop: either the call raises, or it returns the parsed page's result. -/
inductive Attempt where
  | err
  | page : ProductPage → Attempt

/-- Observable actions of the batch runner, used to state the retry /
cool-down / quarantine discipline. -/
inductive Event where
  | attempt : ℕ → Event
  | sleep : ℕ → Event
  | ledgerAdd : ProductData → Event
deriving DecidableEq, Repr

/-- State threaded through the per-item loop of `ScrapeProducts.scrape`:
the `already_scraped` list, the quarantine file's content (`none` = the
file does not exist) and the event trace. -/
structure ItemState where
  already : List (Option String)
  ledger : Option (List ProductData)
  trace : List Event
deriving Repr

/-- The `for _ in range(5): try/except/else` retry loop over the given
attempt indices: a raising attempt sleeps 5 seconds and continues, the
first non-raising attempt returns its result; `none` means every attempt
raised (the loop's `else` branch). -/
def retry_steps (att : ℕ → Attempt) (already : List (Option String)) :
    List ℕ → Option (Option Record) × List Event
  | [] => (none, [])
  | k :: ks =>
    match att k with
    | .err =>
      let r := retry_steps att already ks
      (r.1, Event.attempt k :: Event.sleep 5 :: r.2)
    | .page p => (some (ScrapeProducts.scrape_product p already), [Event.attempt k])

/-- `product["url"] / ["category"] / ["sub_category"] = product_data.get(...)`:
attach the carried fields to a successful record. -/
def finalize_record (product_data : ProductData) (product : Record) : Record :=
  product ++ [("url", Value.vStr product_data.url),
    ("category", Value.vStr product_data.category),
    ("sub_category", Value.vStr product_data.sub_category)]

/-- The body of the per-reference loop of `ScrapeProducts.scrape`: run the
retry loop; on exhaustion append the reference to the quarantine file and
move on; on a skip move on; on a record append `product.get("product_id")`
to `already_scraped`, attach the carried fields and add the record to the
current batch. -/
def process_item (env : ProductData → ℕ → Attempt) (st : ItemState)
    (batch : List Record) (product_data : ProductData) :
    Except RunError (ItemState × List Record) :=
  match retry_steps (env product_data) st.already (List.range 5) with
  | (none, tr) =>
    match FileManager.add product_data st.ledger with
    | .error e => .error e
    | .ok ledger2 =>
      .ok ({ st with
             ledger := ledger2
             trace := st.trace ++ tr ++ [Event.ledgerAdd product_data] }, batch)
  | (some none, tr) => .ok ({ st with trace := st.trace ++ tr }, batch)
  | (some (some product), tr) =>
    .ok ({ st with
           already := st.already ++ [rec_get_str product "product_id"]
           trace := st.trace ++ tr },
         batch ++ [finalize_record product_data product])

/-- The per-reference loop over one chunk. -/
def process_items (env : ProductData → ℕ → Attempt) :
    ItemState → List Record → List ProductData → Except RunError (ItemState × List Record)
  | st, batch, [] => .ok (st, batch)
  | st, batch, product_data :: rest =>
    match process_item env st batch product_data with
    | .error e => .error e
    | .ok (st1, b1) => process_items env st1 b1 rest

/-- End-of-chunk flush: `FileManager.save` (overwrite) for the first chunk,
`FileManager.extend` (append) for every later chunk. -/
def flush (i : ℕ) (store : Option (List Record)) (batch : List Record) :
    Except RunError (Option (List Record)) :=
  if i = 0 then .ok (FileManager.save batch store)
  else FileManager.extend batch store

/-- The chunk loop of `ScrapeProducts.scrape`: process each chunk's
references with a fresh in-memory batch, then flush it to the store. -/
def run_groups (env : ProductData → ℕ → Attempt) :
    ItemState → Option (List Record) → ℕ → List (List ProductData) →
    Except RunError (ItemState × Option (List Record))
  | st, store, _, [] => .ok (st, store)
  | st, store, i, g :: gs =>
    match process_items env st [] g with
    | .error e => .error e
    | .ok (st1, batch) =>
      match flush i store batch with
      | .error e => .error e
      | .ok store1 => run_groups env st1 store1 (i + 1) gs

/-- The successful-record batches the chunk loop produces, chunk by chunk
(independent of the store). -/
def chunk_records (env : ProductData → ℕ → Attempt) :
    ItemState → List (List ProductData) → Except RunError (List (List Record))
  | _, [] => .ok []
  | st, g :: gs =>
    match process_items env st [] g with
    | .error e => .error e
    | .ok (st1, batch) =>
      match chunk_records env st1 gs with
      | .error e => .error e
      | .ok bs => .ok (batch :: bs)

/-- `[products_urls[i:i+1000] for i in range(0, math.ceil(total/1000)*1000, 1000)]`:
the reference list cut into slices of 1000 at offsets `0, 1000, 2000, …`. -/
def chunk_groups (products_urls : List ProductData) : List (List ProductData) :=
  (List.range ((products_urls.length + 999) / 1000)).map
    (fun j => (products_urls.drop (1000 * j)).take 1000)

/-- `ScrapeProducts.scrape`: chunk the reference list, fail with an
`IndexError` on an empty list (`products_urls_groups[0][0]`), otherwise run
the chunk loop from an empty `already_scraped` list. -/
def scrape_run (env : ProductData → ℕ → Attempt) (products_urls : List ProductData)
    (ledger0 : Option (List ProductData)) (store0 : Option (List Record)) :
    Except RunError (ItemState × Option (List Record)) :=
  match chunk_groups products_urls with
  | [] => .error .emptyInput
  | _ :: _ =>
    run_groups env { already := [], ledger := ledger0, trace := [] } store0 0
      (chunk_groups products_urls)

/-- The keys of a record, in insertion order. -/
def rec_keys (r : Record) : List String := r.map Prod.fst

/-- The present `product_id` values of a list of records, in order. -/
def store_pids (recs : List Record) : List String :=
  recs.filterMap (fun r => rec_get_str r "product_id")

/-! ### Association-list lookup helpers -/

theorem lookup_append_left_none {k : String} {l1 l2 : Record}
    (h : List.lookup k l1 = none) :
    List.lookup k (l1 ++ l2) = List.lookup k l2 := by
  induction l1 with
  | nil => simp
  | cons a t ih =>
    cases a with
    | mk ka va =>
      cases hk : (k == ka) with
      | true => simp [List.lookup, hk] at h
      | false =>
        simp only [List.cons_append, List.lookup, hk] at h ⊢
        exact ih h

theorem lookup_append_right_none {k : String} {l1 l2 : Record}
    (h : List.lookup k l2 = none) :
    List.lookup k (l1 ++ l2) = List.lookup k l1 := by
  induction l1 with
  | nil => simpa using h
  | cons a t ih =>
    cases a with
    | mk ka va =>
      cases hk : (k == ka) with
      | true => simp only [List.cons_append, List.lookup, hk]
      | false =>
        simp only [List.cons_append, List.lookup, hk]
        exact ih

theorem lookup_entry_if_ne {k key : String} (v : Option Value) (h : k ≠ key) :
    List.lookup k (entry_if key v) = none := by
  cases v with
  | none => rfl
  | some w =>
    by_cases hw : w.truthy <;>
      simp [entry_if, hw, List.lookup, beq_eq_false_iff_ne.mpr h]

theorem lookup_push_if_ne {k key : String} (r : Record) (v : Option Value) (h : k ≠ key) :
    List.lookup k (push_if r key v) = List.lookup k r :=
  lookup_append_right_none (lookup_entry_if_ne v h)

theorem lookup_push_if_self (r : Record) (key : String) (v : Option Value)
    (h : List.lookup key r = none) :
    List.lookup key (push_if r key v) =
      match v with
      | none => none
      | some w => if w.truthy then some w else none := by
  cases v with
  | none =>
    simp only [push_if, entry_if, List.append_nil]
    exact h
  | some w =>
    by_cases hw : w.truthy
    · simp only [push_if, entry_if, hw, if_true, lookup_append_left_none h,
        List.lookup, beq_self_eq_true]
    · simp only [push_if, entry_if, hw, Bool.false_eq_true, if_false, List.append_nil]
      rw [h]

/-- The `product_id` binding of an assembled record is exactly the parsed,
non-empty product id. -/
theorem rec_get_str_assemble_pid (t s : Option String) (pr : Option ℚ)
    (d pid dz : Option String) (inf : Option (List (String × String)))
    (it : Option (List SetItem)) (sz im : Option String) :
    rec_get_str (ScrapeProducts.assemble_product t s pr d pid dz inf it sz im) "product_id" =
      match pid with
      | none => none
      | some str => if str = "" then none else some str := by
  unfold rec_get_str
  simp only [ScrapeProducts.assemble_product]
  rw [lookup_push_if_ne _ _ (by decide)]
  rw [lookup_push_if_ne _ _ (by decide)]
  rw [lookup_push_if_ne _ _ (by decide)]
  rw [lookup_push_if_ne _ _ (by decide)]
  rw [lookup_push_if_ne _ _ (by decide)]
  rw [lookup_push_if_self _ _ _ (by
    rw [lookup_push_if_ne _ _ (by decide)]
    rw [lookup_push_if_ne _ _ (by decide)]
    rw [lookup_push_if_ne _ _ (by decide)]
    rw [lookup_push_if_ne _ _ (by decide)]
    rfl)]
  cases pid with
  | none => rfl
  | some str =>
    by_cases hstr : str = "" <;>
      simp [Value.truthy, hstr]

/-- When price parsing failed, the assembled record has no `"price"` key. -/
theorem lookup_price_assemble_none (t s : Option String)
    (d pid dz : Option String) (inf : Option (List (String × String)))
    (it : Option (List SetItem)) (sz im : Option String) :
    List.lookup "price" (ScrapeProducts.assemble_product t s none d pid dz inf it sz im) = none := by
  simp only [ScrapeProducts.assemble_product]
  rw [lookup_push_if_ne _ _ (by decide)]
  rw [lookup_push_if_ne _ _ (by decide)]
  rw [lookup_push_if_ne _ _ (by decide)]
  rw [lookup_push_if_ne _ _ (by decide)]
  rw [lookup_push_if_ne _ _ (by decide)]
  rw [lookup_push_if_ne _ _ (by decide)]
  rw [lookup_push_if_ne _ _ (by decide)]
  rw [lookup_push_if_self _ _ _ (by
    rw [lookup_push_if_ne _ _ (by decide)]
    rw [lookup_push_if_ne _ _ (by decide)]
    rfl)]
  rfl

theorem lookup_finalize (pd : ProductData) (r : Record) {k : String}
    (h : k ≠ "url" ∧ k ≠ "category" ∧ k ≠ "sub_category") :
    List.lookup k (finalize_record pd r) = List.lookup k r := by
  unfold finalize_record
  exact lookup_append_right_none (by
    simp [List.lookup, beq_eq_false_iff_ne.mpr h.1,
      beq_eq_false_iff_ne.mpr h.2.1, beq_eq_false_iff_ne.mpr h.2.2])

/-! ### Key-list helpers for the sparse-record invariant -/

theorem rec_keys_append (a b : Record) : rec_keys (a ++ b) = rec_keys a ++ rec_keys b := by
  simp [rec_keys]

theorem rec_keys_entry_if (key : String) (v : Option Value) :
    rec_keys (entry_if key v) = if opt_truthy v then [key] else [] := by
  cases v with
  | none => rfl
  | some w => by_cases hw : w.truthy <;> simp [entry_if, opt_truthy, hw, rec_keys]

theorem rec_keys_push_if (r : Record) (key : String) (v : Option Value) :
    rec_keys (push_if r key v) = rec_keys r ++ (if opt_truthy v then [key] else []) := by
  simp [push_if, rec_keys_append, rec_keys_entry_if]

theorem truthy_of_mem_entry_if {kv : String × Value} {key : String} {v : Option Value}
    (h : kv ∈ entry_if key v) : kv.2.truthy = true := by
  cases v with
  | none => simp [entry_if] at h
  | some w =>
    by_cases hw : w.truthy
    · simp [entry_if, hw] at h
      subst h
      exact hw
    · simp [entry_if, hw] at h

theorem mem_push_if {kv : String × Value} {key : String} {r : Record} {v : Option Value}
    (h : kv ∈ push_if r key v) : kv ∈ r ∨ kv.2.truthy = true := by
  rcases List.mem_append.mp h with h | h
  · exact Or.inl h
  · exact Or.inr (truthy_of_mem_entry_if h)

/-- Every value bound in an assembled record is truthy. -/
theorem truthy_of_mem_assemble {kv : String × Value} (t s : Option String) (pr : Option ℚ)
    (d pid dz : Option String) (inf : Option (List (String × String)))
    (it : Option (List SetItem)) (sz im : Option String)
    (h : kv ∈ ScrapeProducts.assemble_product t s pr d pid dz inf it sz im) : kv.2.truthy = true := by
  simp only [ScrapeProducts.assemble_product] at h
  rcases mem_push_if h with h | h; swap; exact h
  rcases mem_push_if h with h | h; swap; exact h
  rcases mem_push_if h with h | h; swap; exact h
  rcases mem_push_if h with h | h; swap; exact h
  rcases mem_push_if h with h | h; swap; exact h
  rcases mem_push_if h with h | h; swap; exact h
  rcases mem_push_if h with h | h; swap; exact h
  rcases mem_push_if h with h | h; swap; exact h
  rcases mem_push_if h with h | h; swap; exact h
  rcases mem_push_if h with h | h; swap; exact h
  simp at h

/-! ### Concrete fixtures -/

/-- A rendered page on which every lookup chain fails. -/
def blank_page : ProductPage where
  title := none
  subtitleParts := none
  priceSpan := none
  priceEm := none
  description := none
  product_id := none
  designer := none
  imageSrc := none
  imageFetchOk := false
  hasDetails := false
  hasIncluded := false
  hasMeasurement := false
  detailsPanel := none
  includedCards := none
  sizesPanel := none

/-- A page whose `span` price variant renders integer `"199"`, decimal `"99"`. -/
def price_199_page : ProductPage :=
  { blank_page with priceSpan := some { integerText := some "199", decimalText := some "99" } }

/-- A page whose price variant has a non-numeric integer text. -/
def price_nonnum_page : ProductPage :=
  { blank_page with priceSpan := some { integerText := some "abc", decimalText := some "99" } }

/-- A page with a successfully extracted but empty title. -/
def empty_title_page : ProductPage :=
  { blank_page with
    title := some ""
    product_id := some "C5X" }

def ref0 : ProductData where
  url := "u0"
  category := "c0"
  sub_category := "s0"

/-! ### Claim theorems -/

/-- C7: the pagination page count is computed, for every total item count,
as `ceil((total_items - 12) / 48) + 1`; in particular `total_items = 12`
gives 1 page, `total_items = 13` gives 2 pages, and `total_items = 60`
gives 2 pages. -/
theorem pagination_formula :
    (∀ number_of_products : ℤ,
      ScrapeUrls.get_number_of_pages number_of_products
        = ⌈((number_of_products : ℚ) - 12) / 48⌉ + 1)
    ∧ ScrapeUrls.get_number_of_pages 12 = 1
    ∧ ScrapeUrls.get_number_of_pages 13 = 2
    ∧ ScrapeUrls.get_number_of_pages 60 = 2 := by
  refine ⟨fun _ => rfl, ?_, ?_, ?_⟩
  · unfold ScrapeUrls.get_number_of_pages
    norm_num
  · unfold ScrapeUrls.get_number_of_pages
    have h : ((13 : ℤ) : ℚ) - 12 = 1 := by norm_num
    rw [h]
    have h2 : ⌈(1 : ℚ) / 48⌉ = 1 := by
      rw [Int.ceil_eq_iff]
      norm_num
    rw [h2]
    norm_num
  · unfold ScrapeUrls.get_number_of_pages
    have h : (((60 : ℤ) : ℚ) - 12) / 48 = 1 := by norm_num
    rw [h]
    norm_num

/-- C10: with an empty product reference list, `ScrapeProducts.scrape`
fails (an `IndexError` at `products_urls_groups[0][0]`) before any
extraction occurs, whatever the environment and the files hold — there is
no graceful path for an empty run. -/
theorem empty_input_index_error (env : ProductData → ℕ → Attempt)
    (ledger0 : Option (List ProductData)) (store0 : Option (List Record)) :
    scrape_run env [] ledger0 store0 = Except.error RunError.emptyInput := rfl

/-- The record `ScrapeProducts.__scrape_product` assembles when the
product id is not already scraped. -/
def extracted_record (p : ProductPage) : Record :=
  ScrapeProducts.assemble_product (ScrapeProducts.get_title p) (ScrapeProducts.get_subtitle p)
    (ScrapeProducts.get_price p) (ScrapeProducts.get_description p)
    (ScrapeProducts.get_product_id p) (ScrapeProducts.get_designer p)
    (if p.hasDetails then p.detailsPanel.bind ScrapeProducts.get_informations_about_product else none)
    (if p.hasIncluded then p.includedCards.bind ScrapeProducts.get_items_in_the_set else none)
    (if p.hasMeasurement then p.sizesPanel.join else none)
    (ScrapeProducts.get_image p.imageSrc p.imageFetchOk "imgs" (ScrapeProducts.get_product_id p))

theorem scrape_product_eq (p : ProductPage) (already : List (Option String)) :
    ScrapeProducts.scrape_product p already =
      if ScrapeProducts.get_product_id p ∈ already then none
      else some (extracted_record p) := rfl

/-- C1 counterexample: with integer text `"199"` and decimal text `"99"`
the parsed price is `199.99` (`integer + decimal / 100`), not `200.99` as
the claim states. -/
theorem price_parsing_claim_cex :
    ScrapeProducts.get_price price_199_page = some ((19999 : ℚ) / 100)
    ∧ ScrapeProducts.get_price price_199_page ≠ some ((20099 : ℚ) / 100) := by
  have h : ScrapeProducts.get_price price_199_page = some ((199 : ℚ) + 99 / 100) := by
    simp only [ScrapeProducts.get_price,
      show ScrapeProducts.locate_price price_199_page = some ("199", "99") from rfl]
    rw [show pyFloat "199" = some 199 from rfl, show pyFloat "99" = some 99 from rfl]
    simp only [Option.getD_some]
  constructor
  · rw [h]
    norm_num
  · rw [h]
    intro hc
    simp only [Option.some.injEq] at hc
    norm_num at hc

/-- C1 (amended): with integer text `"199"` and decimal text `"99"` the
parsed price equals `199.99`; if the located integer text is non-numeric
the price is `0 + decimal/100`; if the price structure cannot be located at
all (neither structural variant matches) the price field is absent from
the record, not zero. -/
theorem price_parsing_amended :
    (∀ p : ProductPage, ScrapeProducts.locate_price p = some ("199", "99") →
      ScrapeProducts.get_price p = some ((19999 : ℚ) / 100))
    ∧ (∀ (p : ProductPage) (i d : String),
        ScrapeProducts.locate_price p = some (i, d) → pyFloat i = none →
        ScrapeProducts.get_price p = some (0 + (pyFloat d).getD 0 / 100))
    ∧ (∀ (p : ProductPage) (already : List (Option String)) (pd : ProductData),
        ScrapeProducts.locate_price p = none →
        ScrapeProducts.get_product_id p ∉ already →
        ScrapeProducts.get_price p = none ∧
        ∃ r, ScrapeProducts.scrape_product p already = some r ∧
          List.lookup "price" (finalize_record pd r) = none) := by
  refine ⟨?_, ?_, ?_⟩
  · intro p h
    simp only [ScrapeProducts.get_price, h]
    rw [show pyFloat "199" = some 199 from rfl, show pyFloat "99" = some 99 from rfl]
    simp only [Option.getD_some]
    norm_num
  · intro p i d h hi
    simp only [ScrapeProducts.get_price, h, hi, Option.getD_none]
  · intro p already pd h hmem
    have hprice : ScrapeProducts.get_price p = none := by
      simp only [ScrapeProducts.get_price, h]
    refine ⟨hprice, extracted_record p, ?_, ?_⟩
    · rw [scrape_product_eq, if_neg hmem]
    · rw [lookup_finalize _ _ ⟨by decide, by decide, by decide⟩]
      unfold extracted_record
      rw [hprice]
      exact lookup_price_assemble_none _ _ _ _ _ _ _ _ _

/-- C1 amended, witness: the three branches at concrete pages. -/
theorem price_parsing_amended_witness :
    ScrapeProducts.get_price price_199_page = some ((19999 : ℚ) / 100)
    ∧ ScrapeProducts.get_price price_nonnum_page = some (0 + (pyFloat "99").getD 0 / 100)
    ∧ (ScrapeProducts.get_price blank_page = none ∧
        ∃ r, ScrapeProducts.scrape_product blank_page [] = some r ∧
          List.lookup "price" (finalize_record ref0 r) = none) :=
  ⟨price_parsing_amended.1 price_199_page (by decide),
   price_parsing_amended.2.1 price_nonnum_page "abc" "99" (by decide) (by decide),
   price_parsing_amended.2.2 blank_page [] ref0 (by decide) (by decide)⟩

/-! ### Retry-loop lemmas -/

/-- When every attempt raises, the retry loop sleeps 5 seconds after each
attempt and ends in its `else` branch. -/
theorem retry_steps_all_err {att : ℕ → Attempt} {already : List (Option String)}
    {ks : List ℕ} (h : ∀ k ∈ ks, att k = Attempt.err) :
    retry_steps att already ks =
      (none, ks.flatMap fun k => [Event.attempt k, Event.sleep 5]) := by
  induction ks with
  | nil => rfl
  | cons k ks ih =>
    simp only [retry_steps, h k (by simp)]
    rw [ih (fun j hj => h j (by simp [hj]))]
    simp

/-- A non-exhausted retry loop returns the result of one
`__scrape_product` call on some attempt's page. -/
theorem retry_steps_success {att : ℕ → Attempt} {already : List (Option String)}
    {ks : List ℕ} {r : Option Record} {tr : List Event}
    (h : retry_steps att already ks = (some r, tr)) :
    ∃ k p, att k = Attempt.page p ∧ r = ScrapeProducts.scrape_product p already := by
  induction ks generalizing tr with
  | nil => simp [retry_steps] at h
  | cons k ks ih =>
    cases hk : att k with
    | err =>
      simp only [retry_steps, hk] at h
      obtain ⟨h1, _⟩ := Prod.mk.injEq .. ▸ h
      exact ih (Prod.ext_iff.mpr ⟨h1, rfl⟩)
    | page p =>
      simp only [retry_steps, hk, Prod.mk.injEq, Option.some.injEq] at h
      exact ⟨k, p, hk, h.1.symm⟩

/-- Fixture: an environment in which every extraction attempt raises. -/
def env_all_err : ProductData → ℕ → Attempt := fun _ _ => Attempt.err

/-- Fixture: an environment in which every attempt renders the blank page. -/
def env_blank : ProductData → ℕ → Attempt := fun _ _ => Attempt.page blank_page

/-- Fixture: initial item state with an existing, empty quarantine file. -/
def st_empty : ItemState where
  already := []
  ledger := some []
  trace := []

/-- C2: a reference whose extraction raises on all attempts is retried
exactly 5 times with a 5-second pause between attempts, is then written
exactly once into the failure ledger, and the runner then continues with
the next reference. -/
theorem quarantine_terminality (env : ProductData → ℕ → Attempt) (st : ItemState)
    (batch : List Record) (product_data : ProductData) (l : List ProductData)
    (hl : st.ledger = some l)
    (hfail : ∀ k, k < 5 → env product_data k = Attempt.err) :
    process_item env st batch product_data =
      Except.ok ({ st with
        ledger := some (l ++ [product_data])
        trace := st.trace ++ [Event.attempt 0, Event.sleep 5, Event.attempt 1, Event.sleep 5,
          Event.attempt 2, Event.sleep 5, Event.attempt 3, Event.sleep 5,
          Event.attempt 4, Event.sleep 5, Event.ledgerAdd product_data] }, batch)
    ∧ (l ++ [product_data]).count product_data = l.count product_data + 1
    ∧ ∀ rest, process_items env st batch (product_data :: rest) =
        process_items env ({ st with
          ledger := some (l ++ [product_data])
          trace := st.trace ++ [Event.attempt 0, Event.sleep 5, Event.attempt 1, Event.sleep 5,
            Event.attempt 2, Event.sleep 5, Event.attempt 3, Event.sleep 5,
            Event.attempt 4, Event.sleep 5, Event.ledgerAdd product_data] }) batch rest := by
  have h5 : ∀ k ∈ List.range 5, env product_data k = Attempt.err := by
    intro k hk
    exact hfail k (List.mem_range.mp hk)
  have hsteps := @retry_steps_all_err (env product_data) st.already (List.range 5) h5
  rw [show ((List.range 5).flatMap fun k => [Event.attempt k, Event.sleep 5])
      = [Event.attempt 0, Event.sleep 5, Event.attempt 1, Event.sleep 5, Event.attempt 2,
         Event.sleep 5, Event.attempt 3, Event.sleep 5, Event.attempt 4, Event.sleep 5]
      from rfl] at hsteps
  have hitem : process_item env st batch product_data =
      Except.ok ({ st with
        ledger := some (l ++ [product_data])
        trace := st.trace ++ [Event.attempt 0, Event.sleep 5, Event.attempt 1, Event.sleep 5,
          Event.attempt 2, Event.sleep 5, Event.attempt 3, Event.sleep 5,
          Event.attempt 4, Event.sleep 5, Event.ledgerAdd product_data] }, batch) := by
    simp only [process_item, hsteps, hl, FileManager.add]
    simp only [List.append_assoc]
    rfl
  refine ⟨hitem, by simp [List.count_append, List.count_cons], ?_⟩
  intro rest
  simp only [process_items, hitem]

/-- C2 witness: a concrete always-failing reference in a fresh run. -/
theorem quarantine_terminality_witness :
    process_item env_all_err st_empty [] ref0 =
      Except.ok ({ st_empty with
        ledger := some ([] ++ [ref0])
        trace := st_empty.trace ++ [Event.attempt 0, Event.sleep 5, Event.attempt 1,
          Event.sleep 5, Event.attempt 2, Event.sleep 5, Event.attempt 3, Event.sleep 5,
          Event.attempt 4, Event.sleep 5, Event.ledgerAdd ref0] }, [])
    ∧ ([] ++ [ref0]).count ref0 = [].count ref0 + 1
    ∧ process_items env_all_err st_empty [] (ref0 :: [ref0]) =
        process_items env_all_err ({ st_empty with
          ledger := some ([] ++ [ref0])
          trace := st_empty.trace ++ [Event.attempt 0, Event.sleep 5, Event.attempt 1,
            Event.sleep 5, Event.attempt 2, Event.sleep 5, Event.attempt 3, Event.sleep 5,
            Event.attempt 4, Event.sleep 5, Event.ledgerAdd ref0] }) [] [ref0] := by
  obtain ⟨h1, h2, h3⟩ :=
    quarantine_terminality env_all_err st_empty [] ref0 [] rfl (fun _ _ => rfl)
  exact ⟨h1, h2, h3 [ref0]⟩

/-- C6: no error raised by an extraction attempt escapes the per-item
retry handling: whatever the attempts do, the per-item step returns
normally (given an existing ledger file) and the runner advances to the
next reference. -/
theorem extraction_errors_contained (env : ProductData → ℕ → Attempt) (st : ItemState)
    (batch : List Record) (product_data : ProductData) (rest : List ProductData)
    (hl : st.ledger.isSome = true) :
    ∃ st1 b1, process_item env st batch product_data = Except.ok (st1, b1)
      ∧ process_items env st batch (product_data :: rest) = process_items env st1 b1 rest := by
  obtain ⟨l, hl'⟩ := Option.isSome_iff_exists.mp hl
  cases hrs : retry_steps (env product_data) st.already (List.range 5) with
  | mk ropt tr =>
    cases ropt with
    | none =>
      refine ⟨{ st with
          ledger := some (l ++ [product_data])
          trace := st.trace ++ tr ++ [Event.ledgerAdd product_data] }, batch, ?_, ?_⟩
      · simp only [process_item, hrs, hl', FileManager.add]
      · simp only [process_items, process_item, hrs, hl', FileManager.add]
    | some rOpt =>
      cases rOpt with
      | none =>
        refine ⟨{ st with trace := st.trace ++ tr }, batch, ?_, ?_⟩
        · simp only [process_item, hrs]
        · simp only [process_items, process_item, hrs]
      | some product =>
        refine ⟨{ st with
            already := st.already ++ [rec_get_str product "product_id"]
            trace := st.trace ++ tr }, batch ++ [finalize_record product_data product], ?_, ?_⟩
        · simp only [process_item, hrs]
        · simp only [process_items, process_item, hrs]

/-- C6 witness: a concrete always-raising reference is contained. -/
theorem extraction_errors_contained_witness :
    ∃ st1 b1, process_item env_all_err st_empty [] ref0 = Except.ok (st1, b1)
      ∧ process_items env_all_err st_empty [] (ref0 :: []) = process_items env_all_err st1 b1 [] :=
  extraction_errors_contained env_all_err st_empty [] ref0 [] rfl

/-! ### Store-pid and per-item invariants -/

theorem rec_get_str_finalize (pd : ProductData) (r : Record) :
    rec_get_str (finalize_record pd r) "product_id" = rec_get_str r "product_id" := by
  unfold rec_get_str
  rw [lookup_finalize _ _ ⟨by decide, by decide, by decide⟩]

theorem store_pids_append (a b : List Record) :
    store_pids (a ++ b) = store_pids a ++ store_pids b := by
  simp [store_pids]

/-- Every normal return of the per-item step either leaves the
already-scraped list and the batch unchanged (skip or quarantine), or
appends exactly one record and its `product.get("product_id")` entry. -/
theorem process_item_cases (env : ProductData → ℕ → Attempt) (st : ItemState)
    (batch : List Record) (product_data : ProductData) (st1 : ItemState) (b1 : List Record)
    (h : process_item env st batch product_data = Except.ok (st1, b1)) :
    (st1.already = st.already ∧ b1 = batch)
    ∨ ∃ p : ProductPage, ScrapeProducts.get_product_id p ∉ st.already
        ∧ st1.already = st.already ++ [rec_get_str (extracted_record p) "product_id"]
        ∧ b1 = batch ++ [finalize_record product_data (extracted_record p)] := by
  cases hrs : retry_steps (env product_data) st.already (List.range 5) with
  | mk ropt tr =>
    cases ropt with
    | none =>
      cases hlg : st.ledger with
      | none => simp [process_item, hrs, hlg, FileManager.add] at h
      | some l =>
        left
        simp only [process_item, hrs, hlg, FileManager.add, Except.ok.injEq,
          Prod.mk.injEq] at h
        exact ⟨by rw [← h.1], h.2.symm⟩
    | some rOpt =>
      obtain ⟨k, p, hk, hr⟩ := retry_steps_success hrs
      rw [scrape_product_eq] at hr
      cases rOpt with
      | none =>
        left
        simp only [process_item, hrs, Except.ok.injEq, Prod.mk.injEq] at h
        exact ⟨by rw [← h.1], h.2.symm⟩
      | some product =>
        right
        by_cases hmem : ScrapeProducts.get_product_id p ∈ st.already
        · rw [if_pos hmem] at hr
          exact absurd hr (by simp)
        · rw [if_neg hmem] at hr
          refine ⟨p, hmem, ?_, ?_⟩
          · simp only [process_item, hrs, Except.ok.injEq, Prod.mk.injEq] at h
            rw [← h.1]
            simp only [Option.some.injEq] at hr
            rw [← hr]
          · simp only [process_item, hrs, Except.ok.injEq, Prod.mk.injEq] at h
            rw [← h.2]
            simp only [Option.some.injEq] at hr
            rw [← hr]

/-- Invariant of the per-reference loop: the already-scraped list only
grows, the batch only receives new records, the new records' present
product ids are pairwise distinct, and each of them is recorded in the
final already-scraped list but was absent from the initial one. -/
theorem process_items_invariant (env : ProductData → ℕ → Attempt) :
    ∀ (refs : List ProductData) (st : ItemState) (batch : List Record)
      (st2 : ItemState) (b2 : List Record),
      process_items env st batch refs = Except.ok (st2, b2) →
      ∃ tl new, st2.already = st.already ++ tl
        ∧ b2 = batch ++ new
        ∧ (store_pids new).Nodup
        ∧ (∀ x ∈ store_pids new, some x ∈ st2.already ∧ some x ∉ st.already) := by
  intro refs
  induction refs with
  | nil =>
    intro st batch st2 b2 h
    simp only [process_items, Except.ok.injEq, Prod.mk.injEq] at h
    refine ⟨[], [], ?_, ?_, ?_, ?_⟩ <;> simp [← h.1, ← h.2, store_pids]
  | cons ref rest ih =>
    intro st batch st2 b2 h
    simp only [process_items] at h
    cases hpi : process_item env st batch ref with
    | error e => rw [hpi] at h; simp at h
    | ok pair =>
      obtain ⟨st1, b1⟩ := pair
      rw [hpi] at h
      obtain ⟨tl1, new1, ha1, hb1, hnd1, hmem1⟩ := ih st1 b1 st2 b2 h
      rcases process_item_cases env st batch ref st1 b1 hpi with
        ⟨hA, hB⟩ | ⟨p, hnotmem, hA, hB⟩
      · refine ⟨tl1, new1, by rw [ha1, hA], by rw [hb1, hB], hnd1, ?_⟩
        intro x hx
        exact ⟨(hmem1 x hx).1, by rw [← hA]; exact (hmem1 x hx).2⟩
      · have hpid : rec_get_str (extracted_record p) "product_id" =
            match ScrapeProducts.get_product_id p with
            | none => none
            | some str => if str = "" then none else some str :=
          rec_get_str_assemble_pid _ _ _ _ _ _ _ _ _ _
        have hsub : ∀ x : Option String, x ∈ st.already → x ∈ st1.already := by
          intro x hx
          rw [hA]
          exact List.mem_append_left _ hx
        have hgrow : st2.already = st.already
            ++ ([rec_get_str (extracted_record p) "product_id"] ++ tl1) := by
          rw [ha1, hA, List.append_assoc]
        have hbatch : b2 = batch ++ ([finalize_record ref (extracted_record p)] ++ new1) := by
          rw [hb1, hB, List.append_assoc]
        have hpids : store_pids ([finalize_record ref (extracted_record p)] ++ new1) =
            store_pids [finalize_record ref (extracted_record p)] ++ store_pids new1 :=
          store_pids_append _ _
        cases hpe : rec_get_str (extracted_record p) "product_id" with
        | none =>
          have hsingle : store_pids [finalize_record ref (extracted_record p)] = [] := by
            simp [store_pids, rec_get_str_finalize, hpe]
          refine ⟨_, _, hgrow, hbatch, ?_, ?_⟩
          · rw [hpids, hsingle]
            simpa using hnd1
          · intro x hx
            rw [hpids, hsingle] at hx
            simp only [List.nil_append] at hx
            refine ⟨(hmem1 x hx).1, fun hc => (hmem1 x hx).2 (hsub _ hc)⟩
        | some x0 =>
          have hsingle : store_pids [finalize_record ref (extracted_record p)] = [x0] := by
            simp [store_pids, rec_get_str_finalize, hpe]
          have hx0_st1 : (some x0 : Option String) ∈ st1.already := by
            rw [hA, hpe]
            simp
          have hx0_not_st : (some x0 : Option String) ∉ st.already := by
            intro hc
            have h2 : (match ScrapeProducts.get_product_id p with
                | none => none
                | some str => if str = "" then none else some str) = some x0 := by
              rw [← hpid, hpe]
            have hgpid : ScrapeProducts.get_product_id p = some x0 := by
              cases hgp : ScrapeProducts.get_product_id p with
              | none => simp only [hgp] at h2; exact absurd h2 (by simp)
              | some str =>
                simp only [hgp] at h2
                by_cases hs : str = ""
                · simp only [hs, if_pos] at h2
                  exact absurd h2 (by simp)
                · simp only [if_neg hs, Option.some.injEq] at h2
                  rw [h2]
            rw [hgpid] at hnotmem
            exact hnotmem hc
          refine ⟨_, _, hgrow, hbatch, ?_, ?_⟩
          · rw [hpids, hsingle]
            simp only [List.singleton_append, List.nodup_cons]
            refine ⟨fun hc => ?_, hnd1⟩
            exact (hmem1 x0 hc).2 hx0_st1
          · intro x hx
            rw [hpids, hsingle] at hx
            simp only [List.singleton_append, List.mem_cons] at hx
            rcases hx with rfl | hx
            · refine ⟨?_, hx0_not_st⟩
              rw [ha1]
              exact List.mem_append_left _ hx0_st1
            · exact ⟨(hmem1 x hx).1, fun hc => (hmem1 x hx).2 (hsub _ hc)⟩

/-! ### Chunk-loop lemmas -/

/-- Invariant of the chunk loop from the first append-mode flush on: the
persisted records' present product ids stay pairwise distinct and recorded
in the already-scraped list. -/
theorem run_groups_invariant (env : ProductData → ℕ → Attempt) :
    ∀ (gs : List (List ProductData)) (i : ℕ) (st : ItemState)
      (store : Option (List Record)) (st2 : ItemState) (store2 : Option (List Record)),
      1 ≤ i →
      run_groups env st store i gs = Except.ok (st2, store2) →
      (∀ recs, store = some recs →
        (store_pids recs).Nodup ∧ ∀ x ∈ store_pids recs, some x ∈ st.already) →
      (∀ recs2, store2 = some recs2 →
        (store_pids recs2).Nodup ∧ ∀ x ∈ store_pids recs2, some x ∈ st2.already) := by
  intro gs
  induction gs with
  | nil =>
    intro i st store st2 store2 hi h hinv
    simp only [run_groups, Except.ok.injEq, Prod.mk.injEq] at h
    rw [← h.1, ← h.2]
    exact hinv
  | cons g gs ih =>
    intro i st store st2 store2 hi h hinv
    simp only [run_groups] at h
    cases hpi : process_items env st [] g with
    | error e => rw [hpi] at h; simp at h
    | ok pair =>
      obtain ⟨st1, batch⟩ := pair
      rw [hpi] at h
      have hi0 : ¬(i = 0) := by omega
      cases hst : store with
      | none =>
        rw [hst] at h
        simp only [flush, if_neg hi0, FileManager.extend] at h
        simp at h
      | some old =>
        rw [hst] at h
        simp only [flush, if_neg hi0, FileManager.extend] at h
        obtain ⟨tl, new, ha, hb, hnd, hmem⟩ :=
          process_items_invariant env g st [] st1 batch hpi
        have hnew : batch = new := by simpa using hb
        obtain ⟨hndOld, hmemOld⟩ := hinv old hst
        refine ih (i + 1) st1 (some (old ++ batch)) st2 store2 (by omega) h ?_
        intro recs hrecs
        have hrecs2 : recs = old ++ batch := by
          simpa using hrecs.symm
        subst hrecs2
        rw [store_pids_append]
        constructor
        · rw [List.nodup_append]
          refine ⟨hndOld, by rw [hnew]; exact hnd, ?_⟩
          intro x hxOld hxNew
          rw [hnew] at hxNew
          exact (hmem x hxNew).2 (hmemOld x hxOld)
        · intro x hx
          rcases List.mem_append.mp hx with hx | hx
          · rw [ha]
            exact List.mem_append_left _ (hmemOld x hx)
          · rw [hnew] at hx
            exact (hmem x hx).1

/-- From the first append-mode flush on, the store only accumulates: the
final store is the initial content followed by every later chunk's batch,
in order. -/
theorem run_groups_store (env : ProductData → ℕ → Attempt) :
    ∀ (gs : List (List ProductData)) (i : ℕ) (st : ItemState) (acc : List Record)
      (st2 : ItemState) (store2 : Option (List Record)),
      1 ≤ i →
      run_groups env st (some acc) i gs = Except.ok (st2, store2) →
      ∃ bs, chunk_records env st gs = Except.ok bs ∧ store2 = some (acc ++ bs.flatten) := by
  intro gs
  induction gs with
  | nil =>
    intro i st acc st2 store2 hi h
    simp only [run_groups, Except.ok.injEq, Prod.mk.injEq] at h
    exact ⟨[], rfl, by rw [← h.2]; simp⟩
  | cons g gs ih =>
    intro i st acc st2 store2 hi h
    simp only [run_groups] at h
    cases hpi : process_items env st [] g with
    | error e => rw [hpi] at h; simp at h
    | ok pair =>
      obtain ⟨st1, batch⟩ := pair
      rw [hpi] at h
      have hi0 : ¬(i = 0) := by omega
      simp only [flush, if_neg hi0, FileManager.extend] at h
      obtain ⟨bs, hcr, hst⟩ := ih (i + 1) st1 (acc ++ batch) st2 store2 (by omega) h
      refine ⟨batch :: bs, ?_, ?_⟩
      · simp only [chunk_records, hpi, hcr]
      · rw [hst, List.flatten_cons, List.append_assoc]

/-! ### Chunking lemmas -/

theorem chunk_groups_cons (xs : List ProductData) (h : xs ≠ []) :
    chunk_groups xs = xs.take 1000 :: chunk_groups (xs.drop 1000) := by
  have hlen : 1 ≤ xs.length := List.length_pos.mpr h
  have hm : (xs.length + 999) / 1000 = ((xs.drop 1000).length + 999) / 1000 + 1 := by
    rw [List.length_drop]
    omega
  unfold chunk_groups
  rw [hm, List.range_succ_eq_map]
  simp only [List.map_cons, List.map_map, Nat.mul_zero, List.drop_zero]
  congr 1
  apply List.map_congr_left
  intro j hj
  simp only [Function.comp_apply]
  rw [List.drop_drop]
  have harith : 1000 * (j + 1) = 1000 + 1000 * j := by ring
  rw [harith]

theorem chunk_groups_join_aux :
    ∀ (n : ℕ) (xs : List ProductData), xs.length ≤ n → (chunk_groups xs).flatten = xs := by
  intro n
  induction n with
  | zero =>
    intro xs h
    have hx : xs = [] := List.length_eq_zero.mp (Nat.le_zero.mp h)
    subst hx
    rfl
  | succ n ih =>
    intro xs h
    by_cases hx : xs = []
    · subst hx
      rfl
    · rw [chunk_groups_cons xs hx, List.flatten_cons,
        ih (xs.drop 1000) (by rw [List.length_drop]; omega),
        List.take_append_drop]

theorem chunk_groups_join (xs : List ProductData) : (chunk_groups xs).flatten = xs :=
  chunk_groups_join_aux xs.length xs le_rfl

theorem chunk_groups_dropLast_length (xs : List ProductData) :
    ∀ g ∈ (chunk_groups xs).dropLast, g.length = 1000 := by
  intro g hg
  unfold chunk_groups at hg
  cases hm : (xs.length + 999) / 1000 with
  | zero =>
    rw [hm] at hg
    simp at hg
  | succ m =>
    rw [hm, List.range_succ, List.map_append, List.map_singleton,
      List.dropLast_concat] at hg
    obtain ⟨j, hj, he⟩ := List.mem_map.mp hg
    have hjm : j < m := List.mem_range.mp hj
    rw [← he, List.length_take, List.length_drop]
    omega

theorem chunk_groups_length_le (xs : List ProductData) :
    ∀ g ∈ chunk_groups xs, g.length ≤ 1000 := by
  intro g hg
  obtain ⟨j, _, he⟩ := List.mem_map.mp hg
  rw [← he, List.length_take]
  exact min_le_left _ _

/-- C9: record assembly omits every field whose extracted value is falsy,
not only fields whose extraction failed: a parsed price of exactly 0.0, an
empty title or description string, an empty details map, or an empty
included-items list is dropped exactly as if extraction had failed. -/
theorem falsy_values_dropped (t s : Option String) (pr : Option ℚ)
    (d pid dz : Option String) (inf : Option (List (String × String)))
    (it : Option (List SetItem)) (sz im : Option String) :
    ScrapeProducts.assemble_product t s (some 0) d pid dz inf it sz im
      = ScrapeProducts.assemble_product t s none d pid dz inf it sz im
    ∧ ScrapeProducts.assemble_product (some "") s pr d pid dz inf it sz im
      = ScrapeProducts.assemble_product none s pr d pid dz inf it sz im
    ∧ ScrapeProducts.assemble_product t s pr (some "") pid dz inf it sz im
      = ScrapeProducts.assemble_product t s pr none pid dz inf it sz im
    ∧ ScrapeProducts.assemble_product t s pr d pid dz (some []) it sz im
      = ScrapeProducts.assemble_product t s pr d pid dz none it sz im
    ∧ ScrapeProducts.assemble_product t s pr d pid dz inf (some []) sz im
      = ScrapeProducts.assemble_product t s pr d pid dz inf none sz im := by
  refine ⟨?_, ?_, ?_, ?_, ?_⟩ <;>
    simp [ScrapeProducts.assemble_product, push_if, entry_if, Value.truthy]

/-- C5 counterexample: on a page whose title extraction succeeds with the
empty string, the assembled record does not contain the `"title"` key, so
the record's keys are not exactly the keys of the successfully extracted
fields plus the carried fields. -/
theorem sparse_record_claim_cex :
    ScrapeProducts.get_title empty_title_page = some ""
    ∧ ScrapeProducts.scrape_product empty_title_page []
        = some [("product_id", Value.vStr "C5X")]
    ∧ "title" ∉ rec_keys (finalize_record ref0 [("product_id", Value.vStr "C5X")]) := by
  refine ⟨rfl, by decide, by decide⟩

/-- C5 (amended): for every combination of extracted fields, the assembled
record (with its carried fields attached) contains exactly the keys of the
fields whose extraction yielded a truthy value — a non-empty string,
non-zero price, non-empty map or list — plus `url`, `category` and
`sub_category`, and never contains a key bound to a null value. -/
theorem sparse_record_amended (t s : Option String) (pr : Option ℚ)
    (d pid dz : Option String) (inf : Option (List (String × String)))
    (it : Option (List SetItem)) (sz im : Option String) (pd : ProductData) :
    rec_keys (finalize_record pd (ScrapeProducts.assemble_product t s pr d pid dz inf it sz im)) =
      (if opt_truthy (t.map Value.vStr) then ["title"] else [])
      ++ (if opt_truthy (s.map Value.vStr) then ["subtitle"] else [])
      ++ (if opt_truthy (pr.map Value.vNum) then ["price"] else [])
      ++ (if opt_truthy (d.map Value.vStr) then ["description"] else [])
      ++ (if opt_truthy (pid.map Value.vStr) then ["product_id"] else [])
      ++ (if opt_truthy (dz.map Value.vStr) then ["designer"] else [])
      ++ (if opt_truthy (inf.map Value.vDict) then ["informations_about_product"] else [])
      ++ (if opt_truthy (it.map Value.vItems) then ["items_in_the_set"] else [])
      ++ (if opt_truthy (sz.map Value.vStr) then ["sizes"] else [])
      ++ (if opt_truthy (im.map Value.vStr) then ["image_path"] else [])
      ++ ["url", "category", "sub_category"]
    ∧ ∀ kv ∈ finalize_record pd (ScrapeProducts.assemble_product t s pr d pid dz inf it sz im),
        kv.2 ≠ Value.vNone := by
  constructor
  · simp only [finalize_record, ScrapeProducts.assemble_product]
    rw [rec_keys_append]
    simp only [rec_keys_push_if]
    simp [rec_keys, List.append_assoc]
  · intro kv hkv
    rcases List.mem_append.mp hkv with h | h
    · have ht := truthy_of_mem_assemble t s pr d pid dz inf it sz im h
      intro hEq
      rw [hEq] at ht
      simp [Value.truthy] at ht
    · simp only [List.mem_cons, List.not_mem_nil, or_false] at h
      rcases h with h | h | h <;> (subst h; simp)

/-- Fixture: a second reference, and a page with a parsed product id. -/
def ref1 : ProductData where
  url := "u1"
  category := "c1"
  sub_category := "s1"

def page_pidA : ProductPage := { blank_page with product_id := some "A" }

/-- Fixture: an environment in which every attempt renders `page_pidA`. -/
def env_pidA : ProductData → ℕ → Attempt := fun _ _ => Attempt.page page_pidA

/-- C3: references are processed in chunks of 1000 in input order (the
chunks partition the input, all but the last have exactly 1000 entries);
the first chunk's flush overwrites the store and every later chunk's flush
appends without truncating, so after chunk `N` flushes the store holds
exactly the successful records of chunks `1..N`, in order. -/
theorem checkpoint_discipline (env : ProductData → ℕ → Attempt)
    (products_urls : List ProductData) (ledger0 : Option (List ProductData))
    (store0 : Option (List Record)) (N : ℕ) (st2 : ItemState)
    (store2 : Option (List Record))
    (hN : 1 ≤ N) (hNlen : N ≤ (chunk_groups products_urls).length)
    (hrun : run_groups env { already := [], ledger := ledger0, trace := [] } store0 0
        ((chunk_groups products_urls).take N) = Except.ok (st2, store2)) :
    (∃ bs, chunk_records env { already := [], ledger := ledger0, trace := [] }
        ((chunk_groups products_urls).take N) = Except.ok bs
      ∧ store2 = some bs.flatten)
    ∧ (chunk_groups products_urls).flatten = products_urls
    ∧ (∀ g ∈ (chunk_groups products_urls).dropLast, g.length = 1000)
    ∧ (∀ g ∈ chunk_groups products_urls, g.length ≤ 1000) := by
  refine ⟨?_, chunk_groups_join products_urls, chunk_groups_dropLast_length products_urls,
    chunk_groups_length_le products_urls⟩
  cases hG : chunk_groups products_urls with
  | nil =>
    rw [hG] at hNlen
    simp at hNlen
    omega
  | cons g0 gs =>
    cases N with
    | zero => omega
    | succ m =>
      rw [hG] at hrun
      rw [List.take_succ_cons] at hrun ⊢
      simp only [run_groups] at hrun
      cases hpi : process_items env { already := [], ledger := ledger0, trace := [] } [] g0 with
      | error e => rw [hpi] at hrun; simp at hrun
      | ok pair =>
        obtain ⟨st1, batch⟩ := pair
        rw [hpi] at hrun
        have hfl : flush 0 store0 batch = Except.ok (some batch) := rfl
        simp only [hfl] at hrun
        obtain ⟨bs, hcr, hst⟩ :=
          run_groups_store env (gs.take m) (0 + 1) st1 batch st2 store2 (by omega) hrun
        refine ⟨batch :: bs, ?_, ?_⟩
        · simp only [chunk_records, hpi, hcr]
        · rw [hst, List.flatten_cons]

/-- C3 witness: a two-reference input forms a single chunk whose flush
establishes the store. -/
theorem checkpoint_discipline_witness :
    (∃ bs, chunk_records env_blank { already := [], ledger := some [], trace := [] }
        ((chunk_groups [ref0, ref1]).take 1) = Except.ok bs
      ∧ (some [finalize_record ref0 []] : Option (List Record)) = some bs.flatten)
    ∧ (chunk_groups [ref0, ref1]).flatten = [ref0, ref1]
    ∧ (∀ g ∈ (chunk_groups [ref0, ref1]).dropLast, g.length = 1000)
    ∧ (∀ g ∈ chunk_groups [ref0, ref1], g.length ≤ 1000) :=
  checkpoint_discipline env_blank [ref0, ref1] (some []) none 1
    { already := [none], ledger := some [], trace := [Event.attempt 0, Event.attempt 0] }
    (some [finalize_record ref0 []]) le_rfl (by decide) (by rfl)

/-- C4: a product page whose resolved identifier is already in the
already-scraped list yields no record (decided independently of every
other page field); the skip leaves the already-scraped list and the batch
unchanged; and in every completed run the persisted records' present
product ids are pairwise distinct. -/
theorem dedup_by_product_id :
    (∀ (p : ProductPage) (already : List (Option String)),
      ScrapeProducts.get_product_id p ∈ already →
      ScrapeProducts.scrape_product p already = none)
    ∧ (∀ (env : ProductData → ℕ → Attempt) (st : ItemState) (batch : List Record)
        (product_data : ProductData) (p : ProductPage),
        env product_data 0 = Attempt.page p →
        ScrapeProducts.get_product_id p ∈ st.already →
        process_item env st batch product_data =
          Except.ok ({ st with trace := st.trace ++ [Event.attempt 0] }, batch))
    ∧ (∀ (env : ProductData → ℕ → Attempt) (products_urls : List ProductData)
        (ledger0 : Option (List ProductData)) (store0 : Option (List Record))
        (st2 : ItemState) (recs : List Record),
        scrape_run env products_urls ledger0 store0 = Except.ok (st2, some recs) →
        (store_pids recs).Nodup) := by
  refine ⟨?_, ?_, ?_⟩
  · intro p already hmem
    rw [scrape_product_eq, if_pos hmem]
  · intro env st batch product_data p h0 hmem
    have hsteps : retry_steps (env product_data) st.already (List.range 5)
        = (some none, [Event.attempt 0]) := by
      show retry_steps (env product_data) st.already (0 :: [1, 2, 3, 4]) = _
      simp only [retry_steps, h0]
      rw [scrape_product_eq, if_pos hmem]
    simp only [process_item, hsteps]
  · intro env products_urls ledger0 store0 st2 recs hrun
    simp only [scrape_run] at hrun
    cases hG : chunk_groups products_urls with
    | nil => rw [hG] at hrun; simp at hrun
    | cons g0 gs =>
      rw [hG] at hrun
      simp only [run_groups] at hrun
      cases hpi : process_items env { already := [], ledger := ledger0, trace := [] } [] g0 with
      | error e => rw [hpi] at hrun; simp at hrun
      | ok pair =>
        obtain ⟨st1, batch⟩ := pair
        rw [hpi] at hrun
        have hfl : flush 0 store0 batch = Except.ok (some batch) := rfl
        simp only [hfl] at hrun
        obtain ⟨tl, new, ha, hb, hnd, hmem⟩ :=
          process_items_invariant env g0 _ [] st1 batch hpi
        have hnew : batch = new := by simpa using hb
        have hinv1 : ∀ recs0 : List Record, (some batch : Option (List Record)) = some recs0 →
            (store_pids recs0).Nodup ∧ ∀ x ∈ store_pids recs0, some x ∈ st1.already := by
          intro recs0 h0
          have hr0 : recs0 = batch := by simpa using h0.symm
          subst hr0
          rw [hnew]
          exact ⟨hnd, fun x hx => (hmem x hx).1⟩
        exact (run_groups_invariant env gs (0 + 1) st1 (some batch) st2 (some recs)
          (by omega) hrun hinv1 recs rfl).1

/-- C4 witness: two references rendering the same product id; the second
is skipped and the persisted ids are distinct. -/
theorem dedup_by_product_id_witness :
    ScrapeProducts.scrape_product page_pidA [some "A"] = none
    ∧ process_item env_pidA { already := [some "A"], ledger := some [], trace := [] } [] ref0 =
        Except.ok ({ ({ already := [some "A"], ledger := some [], trace := [] } : ItemState) with
          trace := ([] : List Event) ++ [Event.attempt 0] }, [])
    ∧ (store_pids [finalize_record ref0 [("product_id", Value.vStr "A")]]).Nodup := by
  obtain ⟨h1, h2, h3⟩ := dedup_by_product_id
  refine ⟨h1 page_pidA [some "A"] (by simp [page_pidA, blank_page, ScrapeProducts.get_product_id]),
    h2 env_pidA { already := [some "A"], ledger := some [], trace := [] } [] ref0 page_pidA rfl
      (by simp [page_pidA, blank_page, ScrapeProducts.get_product_id]),
    h3 env_pidA [ref0, ref1] (some []) none
      { already := [some "A"], ledger := some [], trace := [Event.attempt 0, Event.attempt 0] }
      [finalize_record ref0 [("product_id", Value.vStr "A")]] (by rfl)⟩

/-- C8: once a record with an unparsable product id is accepted, the value
`None` is appended to the already-scraped list; from then on every page
whose id cannot be parsed is treated as already scraped and yields no
record; and the already-scraped list never shrinks. -/
theorem unparsable_id_poisons_dedup :
    (∀ (env : ProductData → ℕ → Attempt) (st : ItemState) (batch : List Record)
        (product_data : ProductData) (p : ProductPage),
        env product_data 0 = Attempt.page p →
        p.product_id = none →
        (none : Option String) ∉ st.already →
        ∃ b1, process_item env st batch product_data =
          Except.ok ({ st with
            already := st.already ++ [none]
            trace := st.trace ++ [Event.attempt 0] }, b1))
    ∧ (∀ (p : ProductPage) (already : List (Option String)),
        p.product_id = none → (none : Option String) ∈ already →
        ScrapeProducts.scrape_product p already = none)
    ∧ (∀ (env : ProductData → ℕ → Attempt) (st : ItemState) (batch : List Record)
        (product_data : ProductData) (st1 : ItemState) (b1 : List Record),
        process_item env st batch product_data = Except.ok (st1, b1) →
        ∃ t, st1.already = st.already ++ t) := by
  refine ⟨?_, ?_, ?_⟩
  · intro env st batch product_data p h0 hpid hnone
    have hmem : ScrapeProducts.get_product_id p ∉ st.already := by
      simpa [ScrapeProducts.get_product_id, hpid] using hnone
    have hsteps : retry_steps (env product_data) st.already (List.range 5)
        = (some (some (extracted_record p)), [Event.attempt 0]) := by
      show retry_steps (env product_data) st.already (0 :: [1, 2, 3, 4]) = _
      simp only [retry_steps, h0]
      rw [scrape_product_eq, if_neg hmem]
    refine ⟨batch ++ [finalize_record product_data (extracted_record p)], ?_⟩
    simp only [process_item, hsteps]
    have hpe : rec_get_str (extracted_record p) "product_id" = none := by
      unfold extracted_record
      rw [rec_get_str_assemble_pid]
      simp [ScrapeProducts.get_product_id, hpid]
    rw [hpe]
  · intro p already hpid hmem
    rw [scrape_product_eq, if_pos (by simpa [ScrapeProducts.get_product_id, hpid] using hmem)]
  · intro env st batch product_data st1 b1 h
    rcases process_item_cases env st batch product_data st1 b1 h with ⟨hA, _⟩ | ⟨p, _, hA, _⟩
    · exact ⟨[], by simpa using hA⟩
    · exact ⟨[rec_get_str (extracted_record p) "product_id"], hA⟩

/-- C8 witness: a blank page's record poisons the already-scraped list
with `None` and later blank pages are skipped. -/
theorem unparsable_id_poisons_dedup_witness :
    (∃ b1, process_item env_blank st_empty [] ref0 =
      Except.ok ({ st_empty with
        already := st_empty.already ++ [none]
        trace := st_empty.trace ++ [Event.attempt 0] }, b1))
    ∧ ScrapeProducts.scrape_product blank_page [none] = none
    ∧ (∃ t, ({ already := [none], ledger := some [], trace := [Event.attempt 0] } : ItemState).already
        = st_empty.already ++ t) := by
  obtain ⟨h1, h2, h3⟩ := unparsable_id_poisons_dedup
  refine ⟨h1 env_blank st_empty [] ref0 blank_page rfl rfl (by simp [st_empty]),
    h2 blank_page [none] rfl (by simp),
    h3 env_blank st_empty [] ref0
      { already := [none], ledger := some [], trace := [Event.attempt 0] }
      [finalize_record ref0 (extracted_record blank_page)] (by rfl)⟩

end Scraping
